import Mathlib

/-!
Shallow embedding of the leveled-logging core of this repository,
`vendor/github.com/JFrogDev/log4go/log4go.go` (package `log4go`).

Modelling conventions:
* Go's `Level` is `type Level int`; it is embedded as `Int` so that
  out-of-range values can be discussed.  The named constants `FINEST` ..
  `CRITICAL` are the `iota` values `0` .. `7` from the source.
* `Level.String` indexes a fixed array; an out-of-bounds index is a Go
  runtime panic and is embedded as `none` (`Option String`).
* A sink (`LogWriter`) is identified by a `Nat`.  Side effects — a call to
  `fmt.Sprintf` to build a message, an invocation of a message closure, a
  `LogWrite` on a sink, a `Close` of a sink — are recorded as an explicit
  `Event` list returned by each operation.
* The Go map `Filters = map[string]*Filter` is embedded as an association
  list whose keys are unique for every map reachable through the API; the
  unspecified map iteration order is represented by the list order.
* `runtime.Caller` call-site capture and `time.Now()` are runtime inputs;
  they are passed in as the explicit parameters `src` and `now`.
* Every logging entry point returns the (unchanged) filter map next to its
  events, mirroring that the source never assigns to the map on those paths.
-/

namespace Log4go

/-- A Go runtime value as it travels through an `interface{}` variadic
parameter.  `other` stands for a value that is neither a `string` nor an
`int`, carrying its dynamic type name and its default `fmt.Sprint`
rendering. -/
inductive GoVal where
  | int (n : Int)
  | str (s : String)
  | other (typeName : String) (rendered : String)
deriving DecidableEq

/-- Modelled from Go's `fmt.Sprint` applied to a single operand: the default
stringification of one value. -/
def sprint : GoVal → String
  | .int n => toString n
  | .str s => s
  | .other _ r => r

/-- Dynamic type name of a value, as Go's `fmt` prints it in `%!` error
annotations. -/
def goTypeName : GoVal → String
  | .int _ => "int"
  | .str _ => "string"
  | .other t _ => t

/-- Modelled from Go's `fmt`: rendering of a single unflagged verb against
one argument, restricted to the verbs this package's call sites use (`%v`,
`%d`, `%s`); any other pairing renders as a `%!` error annotation. -/
def verbFormat : Char → GoVal → String
  | 'v', a => sprint a
  | 'd', .int n => toString n
  | 's', .str s => s
  | c, a => "%!" ++ String.mk [c] ++ "(" ++ goTypeName a ++ "=" ++ sprint a ++ ")"

/-- Modelled from Go's `fmt`: the `%!(EXTRA ...)` suffix printed when
arguments remain after the format string is exhausted. -/
def extrasText : List GoVal → String
  | [] => ""
  | args => "%!(EXTRA " ++
      String.intercalate ", " (args.map (fun a => goTypeName a ++ "=" ++ sprint a)) ++ ")"

/-- Modelled from Go's `fmt.Sprintf`, restricted to unflagged single-character
verbs (the only format forms the embedded package produces):  `%%` emits a
percent sign, a verb consumes one argument (emitting `%!c(MISSING)` when none
is left), a lone trailing `%` emits `%!(NOVERB)`, and leftover arguments are
appended as `%!(EXTRA ...)`. -/
def sprintfAux : List Char → List GoVal → String
  | [], args => extrasText args
  | c :: rest, args =>
    if c = '%' then
      match rest, args with
      | [], _ => "%!(NOVERB)" ++ extrasText args
      | v :: rest2, args2 =>
        if v = '%' then "%" ++ sprintfAux rest2 args2
        else
          match args2 with
          | [] => "%!" ++ String.mk [v] ++ "(MISSING)" ++ sprintfAux rest2 []
          | a :: args3 => verbFormat v a ++ sprintfAux rest2 args3
    else String.mk [c] ++ sprintfAux rest args

/-- Go `fmt.Sprintf(format, args...)` on the embedded value type. -/
def sprintf (format : String) (args : List GoVal) : String :=
  sprintfAux format.data args

/-- Go `strings.Repeat(s, count)`. -/
def stringsRepeat (s : String) : Nat → String
  | 0 => ""
  | n + 1 => s ++ stringsRepeat s n

/-! ### Levels (`type Level int`, `iota` constants, `levelStrings`) -/

def FINEST : Int := 0
def FINE : Int := 1
def DEBUG : Int := 2
def TRACE : Int := 3
def INFO : Int := 4
def WARNING : Int := 5
def ERROR : Int := 6
def CRITICAL : Int := 7

/-- Source: `levelStrings = [...]string{"FNST", "FINE", "DEBG", "TRAC", "INFO", "WARN", "EROR", "CRIT"}`. -/
def levelStrings : List String :=
  ["FNST", "FINE", "DEBG", "TRAC", "INFO", "WARN", "EROR", "CRIT"]

/-- Source: `func (l Level) String() string`.  The guard is the source's
`l < 0 || int(l) > len(levelStrings)` (note: `>`, not `>=`); an index past
the end of `levelStrings` is a runtime panic, embedded as `none`. -/
def levelString (l : Int) : Option String :=
  if l < 0 ∨ l > (levelStrings.length : Int) then some "UNKNOWN"
  else levelStrings[l.toNat]?

/-! ### LogRecord, events, filters -/

/-- Source: `type LogRecord struct { Level; Created; Source; Message }`.
`Created` is the `time.Now()` value, embedded as a `Nat` timestamp. -/
structure LogRecord where
  Level : Int
  Created : Nat
  Source : String
  Message : String
deriving DecidableEq

/-- An observable side effect of the embedded code: a `fmt.Sprintf` message
build, a message-closure invocation, a `LogWrite` on a sink, or a `Close`
of a sink. -/
inductive Event where
  | formatCalled (format : String)
  | closureCalled
  | logWrite (writer : Nat) (rec : LogRecord)
  | writerClose (writer : Nat)
deriving DecidableEq

/-- Source: `type Filter struct { Level; LogWriter }`; the embedded
`LogWriter` is identified by a sink id. -/
structure Filter where
  Level : Int
  writer : Nat
deriving DecidableEq

/-- Source: `type Filters map[string]*Filter`, embedded as an association
list with unique keys. -/
abbrev Filters := List (String × Filter)

/-- Source: `NewLogger()` — an empty filter map. -/
def NewLogger : Filters := []

/-- Source: `func (log *Logger) Close()` — iterates the map, calls `Close`
on every filter's writer and deletes every entry.  Returns the resulting
(empty) map together with the close events. -/
def Close : Filters → Filters × List Event
  | [] => ([], [])
  | (_, filt) :: rest =>
    let r := Close rest
    (r.1, Event.writerClose filt.writer :: r.2)

/-- Go map insertion `log.Filters[name] = ...`: replaces the binding for an
existing key, otherwise adds a new one. -/
def mapInsert : Filters → String → Filter → Filters
  | [], name, filt => [(name, filt)]
  | (k, v) :: rest, name, filt =>
    if k = name then (name, filt) :: rest else (k, v) :: mapInsert rest name filt

/-- Go map lookup. -/
def mapLookup : Filters → String → Option Filter
  | [], _ => none
  | (k, v) :: rest, name => if k = name then some v else mapLookup rest name

/-- Source: `func (log *Logger) AddFilter(name, lvl, writer)` — a single map
assignment; it performs no writes and closes nothing, hence the empty event
list. -/
def AddFilter (fs : Filters) (name : String) (lvl : Int) (writer : Nat) :
    Filters × List Event :=
  (mapInsert fs name { Level := lvl, writer := writer }, [])

/-- Source: `func (log *Logger) shouldSkip(lvl Level) bool` — the loop with
early exit: skip unless some filter has `lvl >= filt.Level`. -/
def shouldSkip (fs : Filters) (lvl : Int) : Bool :=
  match fs with
  | [] => true
  | (_, filt) :: rest => if lvl ≥ filt.Level then false else shouldSkip rest lvl

/-- Source: `dispatchLogsForLogRecord` — for each filter, `continue` when
`lvl < filt.Level`, otherwise `filt.LogWrite(rec)`. -/
def dispatchLogsForLogRecord (fs : Filters) (lvl : Int) (rec : LogRecord) :
    List Event :=
  match fs with
  | [] => []
  | (_, filt) :: rest =>
    if lvl < filt.Level then dispatchLogsForLogRecord rest lvl rec
    else Event.logWrite filt.writer rec :: dispatchLogsForLogRecord rest lvl rec

/-- Source: `dispatchLogsForSourceAndMessage` — builds the `LogRecord` with
the current time and dispatches it. -/
def dispatchLogsForSourceAndMessage (fs : Filters) (lvl : Int) (now : Nat)
    (source message : String) : List Event :=
  dispatchLogsForLogRecord fs lvl
    { Level := lvl, Created := now, Source := source, Message := message }

/-- Source: `func (log *Logger) intLogf(lvl, format, args...)` — returns
early when `shouldSkip`; otherwise `msg := format`, and only when
`len(args) > 0` is `fmt.Sprintf` applied (recorded as a `formatCalled`
event); the call-site string from `runtime.Caller` is the parameter `src`. -/
def intLogf (fs : Filters) (lvl : Int) (now : Nat) (src : String)
    (format : String) (args : List GoVal) : Filters × List Event :=
  if shouldSkip fs lvl then (fs, [])
  else
    let fmtEvents : List Event :=
      if args.length > 0 then [Event.formatCalled format] else []
    let msg := if args.length > 0 then sprintf format args else format
    (fs, fmtEvents ++ dispatchLogsForSourceAndMessage fs lvl now src msg)

/-- Source: `func (log *Logger) intLogc(lvl, closure)` — returns early when
`shouldSkip`; otherwise invokes the closure once (recorded as a
`closureCalled` event) and dispatches its result. -/
def intLogc (fs : Filters) (lvl : Int) (now : Nat) (src : String)
    (closure : Unit → String) : Filters × List Event :=
  if shouldSkip fs lvl then (fs, [])
  else
    (fs, Event.closureCalled ::
      dispatchLogsForSourceAndMessage fs lvl now src (closure ()))

/-- Source: `func (log *Logger) Log(lvl, source, message)`. -/
def Log (fs : Filters) (lvl : Int) (now : Nat) (source message : String) :
    Filters × List Event :=
  if shouldSkip fs lvl then (fs, [])
  else (fs, dispatchLogsForSourceAndMessage fs lvl now source message)

/-- Source: `Logf` delegates to `intLogf`. -/
def Logf (fs : Filters) (lvl : Int) (now : Nat) (src : String)
    (format : String) (args : List GoVal) : Filters × List Event :=
  intLogf fs lvl now src format args

/-- Source: `Logc` delegates to `intLogc`. -/
def Logc (fs : Filters) (lvl : Int) (now : Nat) (src : String)
    (closure : Unit → String) : Filters × List Event :=
  intLogc fs lvl now src closure

/-- The polymorphic first argument of the convenience methods: a Go value
(dispatched by the source's type switch on `string`) or a `func() string`. -/
inductive GoArg where
  | val (v : GoVal)
  | cl (f : Unit → String)

/-- Source: `func (log *Logger) upToInfo(lvl, arg0, args...)` — type switch:
a `string` is a format string for `intLogf`; a `func() string` goes to
`intLogc`; anything else builds the format `fmt.Sprint(arg0) +
strings.Repeat(" %v", len(args))` and passes it to `intLogf`. -/
def upToInfo (fs : Filters) (lvl : Int) (now : Nat) (src : String)
    (arg0 : GoArg) (args : List GoVal) : Filters × List Event :=
  match arg0 with
  | .val (.str first) => intLogf fs lvl now src first args
  | .cl first => intLogc fs lvl now src first
  | .val v => intLogf fs lvl now src (sprint v ++ stringsRepeat " %v" args.length) args

/-- Source: `Finest` logs through `upToInfo` at `FINEST`. -/
def Finest (fs : Filters) (now : Nat) (src : String) (arg0 : GoArg)
    (args : List GoVal) : Filters × List Event :=
  upToInfo fs FINEST now src arg0 args

/-- Source: `Fine` logs through `upToInfo` at `FINE`. -/
def Fine (fs : Filters) (now : Nat) (src : String) (arg0 : GoArg)
    (args : List GoVal) : Filters × List Event :=
  upToInfo fs FINE now src arg0 args

/-- Source: `Debug` logs through `upToInfo` at `DEBUG`. -/
def Debug (fs : Filters) (now : Nat) (src : String) (arg0 : GoArg)
    (args : List GoVal) : Filters × List Event :=
  upToInfo fs DEBUG now src arg0 args

/-- Source: `Trace` logs through `upToInfo` at `TRACE`. -/
def Trace (fs : Filters) (now : Nat) (src : String) (arg0 : GoArg)
    (args : List GoVal) : Filters × List Event :=
  upToInfo fs TRACE now src arg0 args

/-- Source: `Info` logs through `upToInfo` at `INFO`. -/
def Info (fs : Filters) (now : Nat) (src : String) (arg0 : GoArg)
    (args : List GoVal) : Filters × List Event :=
  upToInfo fs INFO now src arg0 args

/-- Source: `func (log *Logger) overWarning(lvl, arg0, args...) error` —
builds `msg` unconditionally (a format string is `Sprintf`ed even with no
arguments, a closure is invoked, anything else is `Sprint`-joined through a
built format), then calls `intLogf(lvl, msg)` with no arguments and returns
`errors.New(msg)`.  The third component is the returned error's text. -/
def overWarning (fs : Filters) (lvl : Int) (now : Nat) (src : String)
    (arg0 : GoArg) (args : List GoVal) : Filters × List Event × String :=
  let p : String × List Event :=
    match arg0 with
    | .val (.str first) => (sprintf first args, [Event.formatCalled first])
    | .cl first => (first (), [Event.closureCalled])
    | .val v =>
        (sprintf (sprint v ++ stringsRepeat " %v" args.length) args,
         [Event.formatCalled (sprint v ++ stringsRepeat " %v" args.length)])
  let r := intLogf fs lvl now src p.1 []
  (r.1, p.2 ++ r.2, p.1)

/-- Source: `Warn` delegates to `overWarning` at `WARNING`. -/
def Warn (fs : Filters) (now : Nat) (src : String) (arg0 : GoArg)
    (args : List GoVal) : Filters × List Event × String :=
  overWarning fs WARNING now src arg0 args

/-- Source: `Error` delegates to `overWarning` at `ERROR`. -/
def Error (fs : Filters) (now : Nat) (src : String) (arg0 : GoArg)
    (args : List GoVal) : Filters × List Event × String :=
  overWarning fs ERROR now src arg0 args

/-- Source: `Critical` delegates to `overWarning` at `CRITICAL`. -/
def Critical (fs : Filters) (now : Nat) (src : String) (arg0 : GoArg)
    (args : List GoVal) : Filters × List Event × String :=
  overWarning fs CRITICAL now src arg0 args

/-! ### Observation helpers over event lists -/

/-- Is this event a message build (a `Sprintf` application or a closure
invocation)? -/
def isBuild : Event → Bool
  | .formatCalled _ => true
  | .closureCalled => true
  | _ => false

/-- Is this event a sink write? -/
def isWrite : Event → Bool
  | .logWrite _ _ => true
  | _ => false

/-- Is this event a closure invocation? -/
def isClosureCall : Event → Bool
  | .closureCalled => true
  | _ => false

/-- Number of message builds in an event list. -/
def buildEventCount (es : List Event) : Nat :=
  (es.filter isBuild).length

/-- Number of closure invocations in an event list. -/
def closureCallCount (es : List Event) : Nat :=
  (es.filter isClosureCall).length

/-- The sink writes of an event list, in order. -/
def writesOf (es : List Event) : List Event :=
  es.filter isWrite

/-- The message carried by a write event. -/
def eventMessage : Event → Option String
  | .logWrite _ rec => some rec.Message
  | _ => none

/-- The writes the filter contract prescribes for a message at a level: one
`LogWrite` per filter whose threshold is at most the level, in map order. -/
def expectedWrites (fs : Filters) (lvl : Int) (now : Nat) (src msg : String) :
    List Event :=
  (fs.filter (fun p => decide (p.2.Level ≤ lvl))).map
    (fun p => Event.logWrite p.2.writer
      { Level := lvl, Created := now, Source := src, Message := msg })

/-- Strings joined with single spaces (the spec's "default stringification
... joined with spaces" rendering, for comparison with the code). -/
def spaceJoin : List String → String
  | [] => ""
  | [s] => s
  | s :: t :: rest => s ++ " " ++ spaceJoin (t :: rest)

/-! ### Basic characterizations of the embedded operations -/

theorem stringMk_append (l m : List Char) :
    String.mk l ++ String.mk m = String.mk (l ++ m) := rfl

theorem stringMk_data (s : String) : String.mk s.data = s := by
  obtain ⟨d⟩ := s
  rfl

theorem shouldSkip_eq_true_iff (fs : Filters) (lvl : Int) :
    shouldSkip fs lvl = true ↔ ∀ p ∈ fs, lvl < p.2.Level := by
  induction fs with
  | nil => simp [shouldSkip]
  | cons hd tl ih =>
    obtain ⟨k, f⟩ := hd
    by_cases h : lvl ≥ f.Level
    · simp only [shouldSkip, if_pos h]
      constructor
      · intro hf
        exact absurd hf (by simp)
      · intro hall
        exact absurd (hall (k, f) (List.mem_cons_self _ _)) (not_lt.mpr h)
    · simp only [shouldSkip, if_neg h]
      rw [ih]
      constructor
      · intro hall p hp
        rcases List.mem_cons.mp hp with rfl | hmem
        · exact lt_of_not_ge h
        · exact hall p hmem
      · intro hall p hp
        exact hall p (List.mem_cons_of_mem _ hp)

theorem dispatch_eq_filter_map (fs : Filters) (lvl : Int) (rec : LogRecord) :
    dispatchLogsForLogRecord fs lvl rec =
      (fs.filter (fun p => decide (p.2.Level ≤ lvl))).map
        (fun p => Event.logWrite p.2.writer rec) := by
  induction fs with
  | nil => rfl
  | cons hd tl ih =>
    obtain ⟨k, f⟩ := hd
    simp only [dispatchLogsForLogRecord, List.filter_cons]
    by_cases h : lvl < f.Level
    · have hd : decide (f.Level ≤ lvl) = false := by simp [not_le.mpr h]
      simp [h, hd, ih]
    · have hd : decide (f.Level ≤ lvl) = true := by simp [not_lt.mp h]
      simp [h, hd, ih]

theorem mem_expectedWrites (fs : Filters) (lvl : Int) (now : Nat) (src msg : String)
    (e : Event) (he : e ∈ expectedWrites fs lvl now src msg) :
    ∃ w, e = Event.logWrite w
      { Level := lvl, Created := now, Source := src, Message := msg } := by
  simp only [expectedWrites, List.mem_map] at he
  obtain ⟨p, _, rfl⟩ := he
  exact ⟨p.2.writer, rfl⟩

theorem mem_dispatch (fs : Filters) (lvl : Int) (rec : LogRecord) (e : Event)
    (he : e ∈ dispatchLogsForLogRecord fs lvl rec) :
    ∃ w, e = Event.logWrite w rec := by
  rw [dispatch_eq_filter_map] at he
  simp only [List.mem_map] at he
  obtain ⟨p, _, rfl⟩ := he
  exact ⟨p.2.writer, rfl⟩

theorem intLogf_no_args (fs : Filters) (lvl : Int) (now : Nat) (src msg : String) :
    intLogf fs lvl now src msg [] = (fs, expectedWrites fs lvl now src msg) := by
  by_cases h : shouldSkip fs lvl = true
  · rw [intLogf, if_pos h]
    have hall := (shouldSkip_eq_true_iff fs lvl).mp h
    have hnil : fs.filter (fun p => decide (p.2.Level ≤ lvl)) = [] := by
      rw [List.filter_eq_nil_iff]
      intro p hp
      simp [not_le.mpr (hall p hp)]
    simp [expectedWrites, hnil]
  · rw [intLogf, if_neg h]
    simp [expectedWrites, dispatchLogsForSourceAndMessage, dispatch_eq_filter_map]

theorem buildEventCount_append (a b : List Event) :
    buildEventCount (a ++ b) = buildEventCount a + buildEventCount b := by
  simp [buildEventCount, List.filter_append]

theorem buildEventCount_expectedWrites (fs : Filters) (lvl : Int) (now : Nat)
    (src msg : String) :
    buildEventCount (expectedWrites fs lvl now src msg) = 0 := by
  rw [buildEventCount, List.length_eq_zero, List.filter_eq_nil_iff]
  intro e he
  obtain ⟨w, rfl⟩ := mem_expectedWrites fs lvl now src msg e he
  simp [isBuild]

theorem writesOf_append (a b : List Event) :
    writesOf (a ++ b) = writesOf a ++ writesOf b := by
  simp [writesOf, List.filter_append]

theorem writesOf_expectedWrites (fs : Filters) (lvl : Int) (now : Nat)
    (src msg : String) :
    writesOf (expectedWrites fs lvl now src msg) = expectedWrites fs lvl now src msg := by
  rw [writesOf, List.filter_eq_self]
  intro e he
  obtain ⟨w, rfl⟩ := mem_expectedWrites fs lvl now src msg e he
  simp [isWrite]

theorem closureCallCount_dispatch (fs : Filters) (lvl : Int) (rec : LogRecord) :
    closureCallCount (dispatchLogsForLogRecord fs lvl rec) = 0 := by
  rw [closureCallCount, List.length_eq_zero, List.filter_eq_nil_iff]
  intro e he
  obtain ⟨w, rfl⟩ := mem_dispatch fs lvl rec e he
  simp [isClosureCall]

theorem closureCallCount_intLogc (fs : Filters) (lvl : Int) (now : Nat)
    (src : String) (closure : Unit → String) :
    closureCallCount (intLogc fs lvl now src closure).2 =
      if shouldSkip fs lvl then 0 else 1 := by
  by_cases h : shouldSkip fs lvl = true
  · rw [intLogc, if_pos h, if_pos h]
    rfl
  · rw [intLogc, if_neg h, if_neg h]
    have h0 : (List.filter isClosureCall
        (dispatchLogsForSourceAndMessage fs lvl now src (closure ()))).length = 0 := by
      have hd := closureCallCount_dispatch fs lvl
        { Level := lvl, Created := now, Source := src, Message := closure () }
      rw [closureCallCount] at hd
      exact hd
    show closureCallCount (Event.closureCalled :: _) = 1
    rw [closureCallCount, List.filter_cons]
    simp [isClosureCall, h0]

theorem strAppend_assoc (a b c : String) : a ++ b ++ c = a ++ (b ++ c) := by
  obtain ⟨x⟩ := a
  obtain ⟨y⟩ := b
  obtain ⟨z⟩ := c
  rw [stringMk_append, stringMk_append, stringMk_append, stringMk_append,
    List.append_assoc]

theorem strData_append (a b : String) : (a ++ b).data = a.data ++ b.data := by
  obtain ⟨x⟩ := a
  obtain ⟨y⟩ := b
  rfl

theorem stringMk_nil_append (x : String) : String.mk [] ++ x = x := by
  obtain ⟨d⟩ := x
  rfl

/-- Literal text before the first `%` passes through `sprintfAux` verbatim
without touching the argument list. -/
theorem sprintfAux_append_of_no_pct (s cs : List Char) (args : List GoVal)
    (h : '%' ∉ s) :
    sprintfAux (s ++ cs) args = String.mk s ++ sprintfAux cs args := by
  induction s with
  | nil => rw [List.nil_append, stringMk_nil_append]
  | cons c s' ih =>
    have hc : c ≠ '%' := fun hcp => h (hcp ▸ List.mem_cons_self c s')
    have hs' : '%' ∉ s' := fun hmem => h (List.mem_cons_of_mem c hmem)
    rw [List.cons_append]
    rw [sprintfAux.eq_def]
    show (if c = '%' then _ else String.mk [c] ++ sprintfAux (s' ++ cs) args) =
      String.mk (c :: s') ++ sprintfAux cs args
    rw [if_neg hc, ih hs', ← strAppend_assoc, stringMk_append]
    rfl

/-- The tail of the space join: `" " ++ sprint a` for each argument. -/
def joinTail : List GoVal → String
  | [] => ""
  | a :: rest => " " ++ sprint a ++ joinTail rest

/-- The `" %v"`-per-argument format suffix built by the default branch
renders every argument with its default stringification, one space apart. -/
theorem sprintfAux_repeatChunk (args : List GoVal) :
    sprintfAux (stringsRepeat " %v" args.length).data args = joinTail args := by
  induction args with
  | nil => rfl
  | cons a as ih =>
    show sprintfAux (" %v" ++ stringsRepeat " %v" as.length).data (a :: as) = _
    rw [strData_append]
    show sprintfAux (' ' :: '%' :: 'v' :: (stringsRepeat " %v" as.length).data) (a :: as) = _
    show (if ' ' = '%' then _
      else String.mk [' '] ++ sprintfAux ('%' :: 'v' :: (stringsRepeat " %v" as.length).data) (a :: as)) = _
    rw [if_neg (by decide)]
    show String.mk [' '] ++
        (if ('%' : Char) = '%' then
          if ('v' : Char) = '%' then "%" ++ sprintfAux (stringsRepeat " %v" as.length).data (a :: as)
          else verbFormat 'v' a ++ sprintfAux (stringsRepeat " %v" as.length).data as
        else _) = _
    rw [if_pos rfl, if_neg (by decide), ih]
    show String.mk [' '] ++ (sprint a ++ joinTail as) = " " ++ sprint a ++ joinTail as
    rw [strAppend_assoc]

/-- A head string followed by `joinTail` is exactly the space join. -/
theorem joinTail_spaceJoin (x : String) (l : List GoVal) :
    x ++ joinTail l = spaceJoin (x :: l.map sprint) := by
  induction l generalizing x with
  | nil =>
    rw [joinTail, List.map_nil, spaceJoin]
    exact String.append_empty x
  | cons a as ih =>
    rw [joinTail, List.map_cons]
    show x ++ (" " ++ sprint a ++ joinTail as) = spaceJoin (x :: sprint a :: as.map sprint)
    show x ++ (" " ++ sprint a ++ joinTail as) = x ++ " " ++ spaceJoin (sprint a :: as.map sprint)
    rw [← ih (sprint a)]
    simp only [strAppend_assoc]

/-- When the leading text contains no `%`, the format built by the default
branch of the convenience methods renders as the space-separated join of the
default stringifications. -/
theorem sprintf_join (v : GoVal) (args : List GoVal) (h : '%' ∉ (sprint v).data) :
    sprintf (sprint v ++ stringsRepeat " %v" args.length) args =
      spaceJoin (sprint v :: args.map sprint) := by
  rw [sprintf, strData_append, sprintfAux_append_of_no_pct _ _ _ h,
    sprintfAux_repeatChunk, stringMk_data]
  exact joinTail_spaceJoin (sprint v) args

/-- The message `overWarning` builds from its polymorphic arguments,
spelled out per argument form. -/
def overWarningMsg (arg0 : GoArg) (args : List GoVal) : String :=
  match arg0 with
  | .val (.str first) => sprintf first args
  | .cl first => first ()
  | .val v => sprintf (sprint v ++ stringsRepeat " %v" args.length) args

/-- Derived form of `intLogf_no_args` for the event component alone. -/
theorem intLogf_no_args_events (fs : Filters) (lvl : Int) (now : Nat)
    (src msg : String) :
    (intLogf fs lvl now src msg []).2 = expectedWrites fs lvl now src msg := by
  rw [intLogf_no_args]

/-- `overWarning` builds its message exactly once, returns it as the error
text, and its writes are exactly the contract writes of that message —
one per filter whose threshold is met. -/
theorem overWarning_spec (fs : Filters) (lvl : Int) (now : Nat) (src : String)
    (arg0 : GoArg) (args : List GoVal) :
    (overWarning fs lvl now src arg0 args).2.2 = overWarningMsg arg0 args ∧
    buildEventCount (overWarning fs lvl now src arg0 args).2.1 = 1 ∧
    writesOf (overWarning fs lvl now src arg0 args).2.1 =
      expectedWrites fs lvl now src (overWarning fs lvl now src arg0 args).2.2 := by
  rcases arg0 with v | f
  · rcases v with n | s | ⟨t, r⟩
    · refine ⟨rfl, ?_, ?_⟩
      · simp only [overWarning]
        rw [intLogf_no_args_events, buildEventCount_append, buildEventCount_expectedWrites]
        rfl
      · simp only [overWarning]
        rw [intLogf_no_args_events, writesOf_append, writesOf_expectedWrites]
        rfl
    · refine ⟨rfl, ?_, ?_⟩
      · simp only [overWarning]
        rw [intLogf_no_args_events, buildEventCount_append, buildEventCount_expectedWrites]
        rfl
      · simp only [overWarning]
        rw [intLogf_no_args_events, writesOf_append, writesOf_expectedWrites]
        rfl
    · refine ⟨rfl, ?_, ?_⟩
      · simp only [overWarning]
        rw [intLogf_no_args_events, buildEventCount_append, buildEventCount_expectedWrites]
        rfl
      · simp only [overWarning]
        rw [intLogf_no_args_events, writesOf_append, writesOf_expectedWrites]
        rfl
  · refine ⟨rfl, ?_, ?_⟩
    · simp only [overWarning]
      rw [intLogf_no_args_events, buildEventCount_append, buildEventCount_expectedWrites]
      rfl
    · simp only [overWarning]
      rw [intLogf_no_args_events, writesOf_append, writesOf_expectedWrites]
      rfl

/-- `Close` empties the map and emits one close per filter, in map order. -/
theorem Close_eq (fs : Filters) :
    Close fs = ([], fs.map (fun p => Event.writerClose p.2.writer)) := by
  induction fs with
  | nil => rfl
  | cons hd tl ih =>
    obtain ⟨k, f⟩ := hd
    simp [Close, ih]

theorem mapInsert_cons_self (tl : Filters) (k : String) (v filt : Filter) :
    mapInsert ((k, v) :: tl) k filt = (k, filt) :: tl := by
  simp [mapInsert]

theorem mapInsert_cons_ne (tl : Filters) (k name : String) (v filt : Filter)
    (hkn : k ≠ name) :
    mapInsert ((k, v) :: tl) name filt = (k, v) :: mapInsert tl name filt := by
  simp [mapInsert, hkn]

theorem mem_keys_mapInsert (fs : Filters) (name : String) (filt : Filter)
    (x : String) (hx : x ∈ (mapInsert fs name filt).map Prod.fst) :
    x = name ∨ x ∈ fs.map Prod.fst := by
  induction fs with
  | nil =>
    simp [mapInsert] at hx
    exact Or.inl hx
  | cons hd tl ih =>
    obtain ⟨k, v⟩ := hd
    by_cases hkn : k = name
    · subst hkn
      rw [mapInsert_cons_self] at hx
      simp only [List.map_cons, List.mem_cons] at hx ⊢
      rcases hx with h | h
      · exact Or.inl h
      · exact Or.inr (Or.inr h)
    · rw [mapInsert_cons_ne tl k name v filt hkn] at hx
      simp only [List.map_cons, List.mem_cons] at hx ⊢
      rcases hx with h | h
      · exact Or.inr (Or.inl h)
      · rcases ih h with h1 | h2
        · exact Or.inl h1
        · exact Or.inr (Or.inr h2)

theorem mapInsert_keys_nodup (fs : Filters) (name : String) (filt : Filter)
    (h : (fs.map Prod.fst).Nodup) :
    ((mapInsert fs name filt).map Prod.fst).Nodup := by
  induction fs with
  | nil => simp [mapInsert]
  | cons hd tl ih =>
    obtain ⟨k, v⟩ := hd
    simp only [List.map_cons, List.nodup_cons] at h
    obtain ⟨hk, htl⟩ := h
    by_cases hkn : k = name
    · subst hkn
      rw [mapInsert_cons_self]
      simp only [List.map_cons, List.nodup_cons]
      exact ⟨hk, htl⟩
    · rw [mapInsert_cons_ne tl k name v filt hkn]
      simp only [List.map_cons, List.nodup_cons]
      refine ⟨?_, ih htl⟩
      intro hmem
      rcases mem_keys_mapInsert tl name filt k hmem with h1 | h2
      · exact hkn h1
      · exact hk h2

/-- Inserting under a name leaves exactly one entry for that name — the
inserted one — whenever keys were unique before. -/
theorem mapInsert_filterKey (fs : Filters) (name : String) (filt : Filter)
    (h : (fs.map Prod.fst).Nodup) :
    (mapInsert fs name filt).filter (fun p => p.1 == name) = [(name, filt)] := by
  induction fs with
  | nil => simp [mapInsert]
  | cons hd tl ih =>
    obtain ⟨k, v⟩ := hd
    simp only [List.map_cons, List.nodup_cons] at h
    obtain ⟨hk, htl⟩ := h
    by_cases hkn : k = name
    · subst hkn
      rw [mapInsert_cons_self]
      simp only [List.filter_cons]
      have hnil : tl.filter (fun p => p.1 == k) = [] := by
        rw [List.filter_eq_nil_iff]
        intro p hp
        simp only [beq_iff_eq]
        intro hpk
        exact hk (List.mem_map.mpr ⟨p, hp, hpk⟩)
      simp [hnil]
    · rw [mapInsert_cons_ne tl k name v filt hkn]
      simp only [List.filter_cons]
      have hne : (k == name) = false := by
        simp [hkn]
      simp [hne, ih htl]

/-- Every event reachable from the `[build] ++ intLogf(msg, no args)` shape
either carries no message or carries exactly `msg`. -/
theorem buildCons_eventMessage (fs : Filters) (lvl : Int) (now : Nat)
    (src msg : String) (b : Event) (hb : eventMessage b = none) (e : Event)
    (he : e ∈ [b] ++ (intLogf fs lvl now src msg []).2) :
    eventMessage e = none ∨ eventMessage e = some msg := by
  rcases List.mem_append.mp he with h | h
  · rw [List.mem_singleton] at h
    subst h
    exact Or.inl hb
  · rw [intLogf_no_args_events] at h
    obtain ⟨w, rfl⟩ := mem_expectedWrites fs lvl now src msg e h
    exact Or.inr rfl

/-- Every write dispatched by `overWarning` carries the returned error
text as its message. -/
theorem overWarning_eventMessage (fs : Filters) (lvl : Int) (now : Nat)
    (src : String) (arg0 : GoArg) (args : List GoVal) (e : Event)
    (he : e ∈ (overWarning fs lvl now src arg0 args).2.1) :
    eventMessage e = none ∨
    eventMessage e = some (overWarning fs lvl now src arg0 args).2.2 := by
  rcases arg0 with v | f
  · rcases v with n | s | ⟨t, r⟩
    · exact buildCons_eventMessage fs lvl now src
        (sprintf (sprint (GoVal.int n) ++ stringsRepeat " %v" args.length) args)
        (Event.formatCalled (sprint (GoVal.int n) ++ stringsRepeat " %v" args.length))
        rfl e he
    · exact buildCons_eventMessage fs lvl now src (sprintf s args)
        (Event.formatCalled s) rfl e he
    · exact buildCons_eventMessage fs lvl now src
        (sprintf (sprint (GoVal.other t r) ++ stringsRepeat " %v" args.length) args)
        (Event.formatCalled (sprint (GoVal.other t r) ++ stringsRepeat " %v" args.length))
        rfl e he
  · exact buildCons_eventMessage fs lvl now src (f ()) Event.closureCalled rfl e he

/-- The messages `intLogf` dispatches: the format itself when the argument
list is empty, the `Sprintf` result otherwise. -/
theorem intLogf_eventMessage (fs : Filters) (lvl : Int) (now : Nat)
    (src fmt : String) (args : List GoVal) (e : Event)
    (he : e ∈ (intLogf fs lvl now src fmt args).2) :
    eventMessage e = none ∨
    eventMessage e = some (if args.length > 0 then sprintf fmt args else fmt) := by
  simp only [intLogf] at he
  by_cases hs : shouldSkip fs lvl = true
  · rw [if_pos hs] at he
    exact absurd he (List.not_mem_nil e)
  · rw [if_neg hs] at he
    rcases List.mem_append.mp he with h | h
    · by_cases hl : args.length > 0
      · rw [if_pos hl] at h
        rw [List.mem_singleton] at h
        subst h
        exact Or.inl rfl
      · rw [if_neg hl] at h
        exact absurd h (List.not_mem_nil e)
    · rw [dispatchLogsForSourceAndMessage] at h
      obtain ⟨w, rfl⟩ := mem_dispatch _ _ _ e h
      exact Or.inr rfl

/-- The message built by the default (non-string, non-closure) branch is the
space join of the default stringifications whenever the first argument's
stringification is free of `%`. -/
theorem joinMsg_eq (v : GoVal) (args : List GoVal) (hpct : '%' ∉ (sprint v).data) :
    (if args.length > 0 then sprintf (sprint v ++ stringsRepeat " %v" args.length) args
     else sprint v ++ stringsRepeat " %v" args.length) =
      spaceJoin (sprint v :: args.map sprint) := by
  cases args with
  | nil =>
    rw [if_neg (by simp)]
    show sprint v ++ "" = spaceJoin [sprint v]
    exact String.append_empty _
  | cons a as =>
    rw [if_pos (by simp)]
    exact sprintf_join v (a :: as) hpct

/-! ### The claims -/

/-- C1: for every Logger state and arguments, a call to `Warn`, `Error` or
`Critical` builds its message exactly once (one `Sprintf` application or one
closure invocation, never a second formatting pass) and the sinks receiving
it are exactly those of the filters whose threshold is met — one write each,
carrying the built message.  This holds regardless of whether any filter
accepts the level: the admission check inside the shared path fires exactly
when the accepting-filter set is empty, so it never suppresses a delivery
these levels owe. -/
theorem claimC1 (fs : Filters) (now : Nat) (src : String) (arg0 : GoArg)
    (args : List GoVal) :
    (buildEventCount (Warn fs now src arg0 args).2.1 = 1 ∧
      writesOf (Warn fs now src arg0 args).2.1 =
        expectedWrites fs WARNING now src (Warn fs now src arg0 args).2.2) ∧
    (buildEventCount (Error fs now src arg0 args).2.1 = 1 ∧
      writesOf (Error fs now src arg0 args).2.1 =
        expectedWrites fs ERROR now src (Error fs now src arg0 args).2.2) ∧
    (buildEventCount (Critical fs now src arg0 args).2.1 = 1 ∧
      writesOf (Critical fs now src arg0 args).2.1 =
        expectedWrites fs CRITICAL now src (Critical fs now src arg0 args).2.2) :=
  ⟨⟨(overWarning_spec fs WARNING now src arg0 args).2.1,
    (overWarning_spec fs WARNING now src arg0 args).2.2⟩,
   ⟨(overWarning_spec fs ERROR now src arg0 args).2.1,
    (overWarning_spec fs ERROR now src arg0 args).2.2⟩,
   ⟨(overWarning_spec fs CRITICAL now src arg0 args).2.1,
    (overWarning_spec fs CRITICAL now src arg0 args).2.2⟩⟩

/-- C2: the in-range levels render their fixed abbreviations and every
out-of-range level renders `"UNKNOWN"` — except the boundary value `8`
(one past `CRITICAL`), where the source's guard `int(l) > len(levelStrings)`
(rather than `>=`) lets the index through and `levelStrings[8]` panics
(embedded as `none`) instead of returning `"UNKNOWN"`. -/
theorem claimC2 :
    levelString 8 = none ∧
    levelString FINEST = some "FNST" ∧
    levelString FINE = some "FINE" ∧
    levelString DEBUG = some "DEBG" ∧
    levelString TRACE = some "TRAC" ∧
    levelString INFO = some "INFO" ∧
    levelString WARNING = some "WARN" ∧
    levelString ERROR = some "EROR" ∧
    levelString CRITICAL = some "CRIT" ∧
    (∀ l : Int, l < 0 → levelString l = some "UNKNOWN") ∧
    (∀ l : Int, 8 < l → levelString l = some "UNKNOWN") := by
  have h8 : (levelStrings.length : Int) = 8 := by decide
  refine ⟨by decide, by decide, by decide, by decide, by decide, by decide,
    by decide, by decide, by decide, ?_, ?_⟩
  · intro l hl
    rw [levelString, if_pos (Or.inl hl)]
  · intro l hl
    rw [levelString, if_pos (Or.inr (by rw [h8]; exact hl))]

/-- C2 witness: the universally quantified out-of-range clauses evaluated at
`-3` and `42`. -/
theorem claimC2_witness :
    levelString (-3) = some "UNKNOWN" ∧ levelString 42 = some "UNKNOWN" :=
  ⟨claimC2.2.2.2.2.2.2.2.2.2.1 (-3) (by decide),
   claimC2.2.2.2.2.2.2.2.2.2.2 42 (by decide)⟩

/-- C3: for a filter present in the mapping (with the sink-per-filter
ownership the spec stipulates, i.e. distinct sinks), a dispatched record at
level `lvl` reaches that filter's sink iff the filter's threshold is at most
`lvl` (non-strict). -/
theorem claimC3 (fs : Filters) (lvl : Int) (rec : LogRecord) (name : String)
    (filt : Filter) (hmem : (name, filt) ∈ fs)
    (hw : (fs.map (fun p => p.2.writer)).Nodup) :
    Event.logWrite filt.writer rec ∈ dispatchLogsForLogRecord fs lvl rec ↔
      filt.Level ≤ lvl := by
  rw [dispatch_eq_filter_map]
  constructor
  · intro h
    simp only [List.mem_map, List.mem_filter] at h
    obtain ⟨p, ⟨hpmem, hple⟩, heq⟩ := h
    have hwrit : p.2.writer = filt.writer := by
      injection heq with h1 h2
    have hpe : p = (name, filt) :=
      List.inj_on_of_nodup_map hw hpmem hmem hwrit
    rw [hpe] at hple
    simpa using hple
  · intro h
    rw [List.mem_map]
    refine ⟨(name, filt), ?_, rfl⟩
    rw [List.mem_filter]
    exact ⟨hmem, by simp [h]⟩

/-- C3 witness: with filters `{"a": DEBUG(sink 0), "b": ERROR(sink 1)}`,
a WARNING record reaches sink 0 (via the theorem) but not sink 1, and a
CRITICAL record reaches both. -/
theorem claimC3_witness :
    (Event.logWrite 0 { Level := WARNING, Created := 0, Source := "s", Message := "m" } ∈
      dispatchLogsForLogRecord
        [("a", { Level := DEBUG, writer := 0 }), ("b", { Level := ERROR, writer := 1 })]
        WARNING { Level := WARNING, Created := 0, Source := "s", Message := "m" }) ∧
    (Event.logWrite 1 { Level := WARNING, Created := 0, Source := "s", Message := "m" } ∉
      dispatchLogsForLogRecord
        [("a", { Level := DEBUG, writer := 0 }), ("b", { Level := ERROR, writer := 1 })]
        WARNING { Level := WARNING, Created := 0, Source := "s", Message := "m" }) ∧
    (Event.logWrite 0 { Level := CRITICAL, Created := 0, Source := "s", Message := "m" } ∈
      dispatchLogsForLogRecord
        [("a", { Level := DEBUG, writer := 0 }), ("b", { Level := ERROR, writer := 1 })]
        CRITICAL { Level := CRITICAL, Created := 0, Source := "s", Message := "m" }) ∧
    (Event.logWrite 1 { Level := CRITICAL, Created := 0, Source := "s", Message := "m" } ∈
      dispatchLogsForLogRecord
        [("a", { Level := DEBUG, writer := 0 }), ("b", { Level := ERROR, writer := 1 })]
        CRITICAL { Level := CRITICAL, Created := 0, Source := "s", Message := "m" }) :=
  ⟨(claimC3
      [("a", { Level := DEBUG, writer := 0 }), ("b", { Level := ERROR, writer := 1 })]
      WARNING { Level := WARNING, Created := 0, Source := "s", Message := "m" }
      "a" { Level := DEBUG, writer := 0 } (by decide) (by decide)).mpr (by decide),
   by decide, by decide, by decide⟩

/-- C4: when no filter's threshold admits the level, `Logf` performs no
format application and `Logc` never invokes its closure (no events at all);
when some filter admits the level, the closure is invoked exactly once; and
in every case the closure runs at most once. -/
theorem claimC4 (fs : Filters) (lvl : Int) (now : Nat) (src fmt : String)
    (args : List GoVal) (closure : Unit → String) :
    ((∀ p ∈ fs, lvl < p.2.Level) →
      (Logf fs lvl now src fmt args).2 = [] ∧
      (Logc fs lvl now src closure).2 = []) ∧
    ((∃ p ∈ fs, p.2.Level ≤ lvl) →
      closureCallCount (Logc fs lvl now src closure).2 = 1) ∧
    closureCallCount (Logc fs lvl now src closure).2 ≤ 1 := by
  have hcc := closureCallCount_intLogc fs lvl now src closure
  refine ⟨?_, ?_, ?_⟩
  · intro hall
    have hs : shouldSkip fs lvl = true := (shouldSkip_eq_true_iff fs lvl).mpr hall
    constructor
    · rw [Logf, intLogf, if_pos hs]
    · rw [Logc, intLogc, if_pos hs]
  · intro hex
    have hs : shouldSkip fs lvl = false := by
      rw [Bool.eq_false_iff]
      intro ht
      obtain ⟨p, hp, hle⟩ := hex
      exact absurd ((shouldSkip_eq_true_iff fs lvl).mp ht p hp) (not_lt.mpr hle)
    rw [Logc, hcc, hs]
    rfl
  · rw [Logc, hcc]
    split <;> omega

/-- C4 witness: a DEBUG call against a single ERROR filter produces no
events at all, and an ERROR call against a single DEBUG filter runs the
closure exactly once. -/
theorem claimC4_witness :
    (Logf [("a", { Level := ERROR, writer := 0 })] DEBUG 0 "s" "fmt %d" [GoVal.int 1]).2 = [] ∧
    (Logc [("a", { Level := ERROR, writer := 0 })] DEBUG 0 "s" (fun _ => "m")).2 = [] ∧
    closureCallCount
      (Logc [("a", { Level := DEBUG, writer := 0 })] ERROR 0 "s" (fun _ => "m")).2 = 1 :=
  ⟨((claimC4 [("a", { Level := ERROR, writer := 0 })] DEBUG 0 "s" "fmt %d" [GoVal.int 1]
      (fun _ => "m")).1 (by decide)).1,
   ((claimC4 [("a", { Level := ERROR, writer := 0 })] DEBUG 0 "s" "fmt %d" [GoVal.int 1]
      (fun _ => "m")).1 (by decide)).2,
   (claimC4 [("a", { Level := DEBUG, writer := 0 })] ERROR 0 "s" "f" []
      (fun _ => "m")).2.1 ⟨("a", { Level := DEBUG, writer := 0 }), by decide, by decide⟩⟩

/-- C5 counterexample: the claim fails when the first argument's default
stringification contains a format verb.  With first argument rendering as
`"100%d"` and one extra argument `5`, the code builds the format
`"100%d %v"` and `Sprintf` consumes `5` for the `%d` inside the rendered
text, logging `"1005 %!v(MISSING)"` instead of the space join `"100%d 5"`. -/
theorem claimC5_counterexample :
    (upToInfo [("a", { Level := FINEST, writer := 0 })] DEBUG 0 "s"
        (GoArg.val (GoVal.other "T" "100%d")) [GoVal.int 5]).2 =
      [Event.formatCalled "100%d %v",
       Event.logWrite 0
         { Level := DEBUG, Created := 0, Source := "s", Message := "1005 %!v(MISSING)" }] ∧
    spaceJoin (sprint (GoVal.other "T" "100%d") :: [GoVal.int 5].map sprint) = "100%d 5" ∧
    "1005 %!v(MISSING)" ≠ "100%d 5" :=
  ⟨by decide, by decide, by decide⟩

/-- C5 (amended): for a first argument that is neither a string nor a
closure and whose default stringification contains no `%` character, the
message logged by the `Finest`..`Info` path and the message built by the
`Warn`/`Error`/`Critical` path both equal the default stringifications of
the first and remaining arguments joined with single spaces.  (When the
stringification contains `%`, those characters are interpreted as format
verbs against the remaining arguments — see the counterexample.) -/
theorem claimC5 (fs : Filters) (lvl : Int) (now : Nat) (src : String)
    (v : GoVal) (args : List GoVal)
    (hstr : ∀ s, v ≠ GoVal.str s) (hpct : '%' ∉ (sprint v).data) :
    (∀ e ∈ (upToInfo fs lvl now src (GoArg.val v) args).2,
      eventMessage e = none ∨
      eventMessage e = some (spaceJoin (sprint v :: args.map sprint))) ∧
    (overWarning fs lvl now src (GoArg.val v) args).2.2 =
      spaceJoin (sprint v :: args.map sprint) := by
  constructor
  · intro e he
    have hup : (upToInfo fs lvl now src (GoArg.val v) args).2 =
        (intLogf fs lvl now src (sprint v ++ stringsRepeat " %v" args.length) args).2 := by
      cases v with
      | int n => rfl
      | str s => exact absurd rfl (hstr s)
      | other t r => rfl
    rw [hup] at he
    rcases intLogf_eventMessage fs lvl now src _ args e he with h | h
    · exact Or.inl h
    · rw [joinMsg_eq v args hpct] at h
      exact Or.inr h
  · have hover : (overWarning fs lvl now src (GoArg.val v) args).2.2 =
        sprintf (sprint v ++ stringsRepeat " %v" args.length) args := by
      cases v with
      | int n => rfl
      | str s => exact absurd rfl (hstr s)
      | other t r => rfl
    rw [hover]
    exact sprintf_join v args hpct

/-- C5 witness: the amended claim at first argument `100` (an int) and one
string argument `"x"`: the error text of `overWarning` is the space join. -/
theorem claimC5_witness :
    (overWarning [("a", { Level := FINEST, writer := 0 })] DEBUG 0 "s"
        (GoArg.val (GoVal.int 100)) [GoVal.str "x"]).2.2 =
      spaceJoin (sprint (GoVal.int 100) :: [GoVal.str "x"].map sprint) :=
  (claimC5 [("a", { Level := FINEST, writer := 0 })] DEBUG 0 "s" (GoVal.int 100)
    [GoVal.str "x"] (fun s h => GoVal.noConfusion h) (by decide)).2

/-- C6: `Warn`/`Error`/`Critical` (through `overWarning`) return an error
whose text is exactly the formatted message for every form of the first
argument — `Sprintf` of a format string, the closure's result, or the
`Sprint`-join format — and every record they dispatch carries that same
text as its message. -/
theorem claimC6 (fs : Filters) (lvl : Int) (now : Nat) (src : String)
    (arg0 : GoArg) (args : List GoVal) :
    (overWarning fs lvl now src arg0 args).2.2 = overWarningMsg arg0 args ∧
    ∀ e ∈ (overWarning fs lvl now src arg0 args).2.1,
      eventMessage e = none ∨
      eventMessage e = some (overWarning fs lvl now src arg0 args).2.2 :=
  ⟨(overWarning_spec fs lvl now src arg0 args).1,
   fun e he => overWarning_eventMessage fs lvl now src arg0 args e he⟩

/-- C6 witness: the dispatched write of `Warn` over format `"hi"` with no
arguments carries the returned error text. -/
theorem claimC6_witness :
    eventMessage (Event.logWrite 0
      { Level := WARNING, Created := 0, Source := "s", Message := "hi" }) = none ∨
    eventMessage (Event.logWrite 0
      { Level := WARNING, Created := 0, Source := "s", Message := "hi" }) =
      some (overWarning [("a", { Level := FINEST, writer := 0 })] WARNING 0 "s"
        (GoArg.val (GoVal.str "hi")) []).2.2 :=
  (claimC6 [("a", { Level := FINEST, writer := 0 })] WARNING 0 "s"
    (GoArg.val (GoVal.str "hi")) []).2
    (Event.logWrite 0 { Level := WARNING, Created := 0, Source := "s", Message := "hi" })
    (by decide)

/-- C7: `Close` leaves an empty filter mapping and emits a sink close for
every filter that was in the mapping, and a subsequent `Log` at any level is
a complete no-op (no events, and in particular no sink write). -/
theorem claimC7 (fs : Filters) (lvl : Int) (now : Nat) (source message : String) :
    (Close fs).1 = [] ∧
    (∀ p ∈ fs, Event.writerClose p.2.writer ∈ (Close fs).2) ∧
    Log (Close fs).1 lvl now source message = ((Close fs).1, []) := by
  rw [Close_eq]
  refine ⟨rfl, ?_, rfl⟩
  intro p hp
  exact List.mem_map.mpr ⟨p, hp, rfl⟩

/-- C7 witness: closing a two-filter logger closes both sinks. -/
theorem claimC7_witness :
    Event.writerClose 0 ∈
      (Close [("a", { Level := DEBUG, writer := 0 }), ("b", { Level := ERROR, writer := 1 })]).2 ∧
    Event.writerClose 1 ∈
      (Close [("a", { Level := DEBUG, writer := 0 }), ("b", { Level := ERROR, writer := 1 })]).2 :=
  ⟨(claimC7 [("a", { Level := DEBUG, writer := 0 }), ("b", { Level := ERROR, writer := 1 })]
      FINEST 0 "s" "m").2.1 ("a", { Level := DEBUG, writer := 0 }) (by decide),
   (claimC7 [("a", { Level := DEBUG, writer := 0 }), ("b", { Level := ERROR, writer := 1 })]
      FINEST 0 "s" "m").2.1 ("b", { Level := ERROR, writer := 1 }) (by decide)⟩

/-- C8: two `AddFilter` calls with the same name leave exactly one filter
under that name — the one of the second call — and neither call emits any
event (in particular no `Close` of the replaced filter's sink). -/
theorem claimC8 (fs : Filters) (name : String) (l1 l2 : Int) (w1 w2 : Nat)
    (h : (fs.map Prod.fst).Nodup) :
    ((AddFilter (AddFilter fs name l1 w1).1 name l2 w2).1).filter
        (fun p => p.1 == name) = [(name, { Level := l2, writer := w2 })] ∧
    (AddFilter fs name l1 w1).2 = [] ∧
    (AddFilter (AddFilter fs name l1 w1).1 name l2 w2).2 = [] := by
  refine ⟨?_, rfl, rfl⟩
  exact mapInsert_filterKey _ name _ (mapInsert_keys_nodup fs name _ h)

/-- C8 witness: replacing `"a"` twice on a logger that already has `"b"`. -/
theorem claimC8_witness :
    ((AddFilter (AddFilter [("b", { Level := ERROR, writer := 5 })] "a" FINE 10).1
        "a" TRACE 20).1).filter (fun p => p.1 == "a") =
      [("a", { Level := TRACE, writer := 20 })] :=
  (claimC8 [("b", { Level := ERROR, writer := 5 })] "a" FINE TRACE 10 20 (by decide)).1

/-- C9: the logging paths never mutate the filter mapping — `Log`, `Logf`
and `Logc` return the mapping unchanged for every state and arguments. -/
theorem claimC9 (fs : Filters) (lvl : Int) (now : Nat)
    (source message src fmt : String) (args : List GoVal)
    (closure : Unit → String) :
    (Log fs lvl now source message).1 = fs ∧
    (Logf fs lvl now src fmt args).1 = fs ∧
    (Logc fs lvl now src closure).1 = fs := by
  refine ⟨?_, ?_, ?_⟩
  · rw [Log]
    split <;> rfl
  · rw [Logf, intLogf]
    split <;> rfl
  · rw [Logc, intLogc]
    split <;> rfl

/-- C10: `intLogf` with an empty variadic list performs no formatting at all
and every record it dispatches carries the format string verbatim — so the
pre-formatted message `overWarning` passes down (possibly containing `%`) is
never reformatted. -/
theorem claimC10 (fs : Filters) (lvl : Int) (now : Nat) (src format : String) :
    buildEventCount (intLogf fs lvl now src format []).2 = 0 ∧
    ∀ e ∈ (intLogf fs lvl now src format []).2,
      ∃ w, e = Event.logWrite w
        { Level := lvl, Created := now, Source := src, Message := format } := by
  rw [intLogf_no_args_events]
  exact ⟨buildEventCount_expectedWrites fs lvl now src format,
    fun e he => mem_expectedWrites fs lvl now src format e he⟩

/-- C10 witness: a format containing `%d` passes through verbatim when no
arguments are supplied. -/
theorem claimC10_witness :
    buildEventCount
      (intLogf [("a", { Level := FINEST, writer := 0 })] WARNING 0 "s" "90%d full" []).2 = 0 ∧
    (∃ w, Event.logWrite 0
        { Level := WARNING, Created := 0, Source := "s", Message := "90%d full" } =
      Event.logWrite w
        { Level := WARNING, Created := 0, Source := "s", Message := "90%d full" }) :=
  ⟨(claimC10 [("a", { Level := FINEST, writer := 0 })] WARNING 0 "s" "90%d full").1,
   (claimC10 [("a", { Level := FINEST, writer := 0 })] WARNING 0 "s" "90%d full").2
     (Event.logWrite 0 { Level := WARNING, Created := 0, Source := "s", Message := "90%d full" })
     (by decide)⟩

end Log4go
